import Mathlib

/-!
Verification of the JBerry bridge-solver pipeline (`Solver.py`, `main.py`).

The Python code is shallowly embedded: the card-token codec, the deal
bitmask builder, the vulnerability table, the par-string decoding and the
`solve` orchestration are translated into executable Lean definitions.
The external DDS engine (`CalcDDtable` / `Par`, reached through ctypes)
is modelled as an oracle record; a call that raises a Python exception is
modelled as an `Except.error`, which the pipeline's `try` block catches.
Python strings are modelled as `List Char` (converted to `String` at the
envelope boundary), C byte buffers as `List Nat`.
-/

namespace JBerry

/-- A card token, modelling a Python string such as "AS". -/
abbrev Token := List Char

/-- Seat mapping from `Solver.py`: HandMap = N 0, E 1, S 2, W 3. -/
def HandMap (p : String) : Option (Fin 4) :=
  if p = "N" then some 0
  else if p = "E" then some 1
  else if p = "S" then some 2
  else if p = "W" then some 3
  else none

/-- Suit mapping from `Solver.py`: SuitMap = S 0, H 1, D 2, C 3. -/
def SuitMap (c : Char) : Option (Fin 4) :=
  if c = 'S' then some 0
  else if c = 'H' then some 1
  else if c = 'D' then some 2
  else if c = 'C' then some 3
  else none

/-- Rank bit mapping from `Solver.py`: bit 2 for rank 2 up to bit 14 for the ace. -/
def RankMap (c : Char) : Option Nat :=
  if c = '2' then some (1 <<< 2)
  else if c = '3' then some (1 <<< 3)
  else if c = '4' then some (1 <<< 4)
  else if c = '5' then some (1 <<< 5)
  else if c = '6' then some (1 <<< 6)
  else if c = '7' then some (1 <<< 7)
  else if c = '8' then some (1 <<< 8)
  else if c = '9' then some (1 <<< 9)
  else if c = 'T' then some (1 <<< 10)
  else if c = 'J' then some (1 <<< 11)
  else if c = 'Q' then some (1 <<< 12)
  else if c = 'K' then some (1 <<< 13)
  else if c = 'A' then some (1 <<< 14)
  else none

/-- The ctypes struct `ddTableDeal`: `cards[4][4]`, indexed [seat][suit].
Cells hold `c_uint` values; every stored value is an OR of rank bits
(each below 2^15), so no 32-bit wrap can occur. -/
abbrev ddTableDeal := Fin 4 → Fin 4 → Nat

/-- The zero-initialized deal matrix (`deal.cards = ((c_uint * 4) * 4)()`). -/
def emptyDeal : ddTableDeal := fun _ _ => 0

/-- One `deal.cards[p_idx][suit_idx] |= bit` update. -/
def dealOr (d : ddTableDeal) (p s : Fin 4) (bit : Nat) : ddTableDeal :=
  fun p' s' => if p' = p ∧ s' = s then d p' s' ||| bit else d p' s'

/-- The body of the card loop in `BridgeSolver.solve`: skip tokens shorter
than two characters, upper-case the first two characters, and on a valid
(rank, suit) pair OR the bit into the deal and bump the accepted counter.
`Char.toUpper` models Python `str.upper()` on the ASCII range, which covers
every key of `RankMap` and `SuitMap`. -/
def encodeCard (st : ddTableDeal × Nat) (p : Fin 4) (card : Token) : ddTableDeal × Nat :=
  match card with
  | c0 :: c1 :: _ =>
    match RankMap c0.toUpper, SuitMap c1.toUpper with
    | some bit, some s => (dealOr st.1 p s bit, st.2 + 1)
    | _, _ => st
  | _ => st

/-- The encoding loop of `BridgeSolver.solve` (lines 200-215): iterate the
hands mapping, skip seats not in `HandMap`, fold every card of a seat into
the deal. Returns the deal and `total_cards`. -/
def encodeHands (hands : List (String × List Token)) : ddTableDeal × Nat :=
  hands.foldl
    (fun st pc =>
      match HandMap pc.1 with
      | none => st
      | some p => pc.2.foldl (fun st c => encodeCard st p c) st)
    (emptyDeal, 0)

/-- The same per-token step, applied to one (seat key, token) pair. -/
def pstep (st : ddTableDeal × Nat) (pc : String × Token) : ddTableDeal × Nat :=
  match HandMap pc.1 with
  | none => st
  | some p => encodeCard st p pc.2

/-- The encoding loop over an explicit flattened list of (seat key, token) pairs. -/
def encodePairs (l : List (String × Token)) : ddTableDeal × Nat :=
  l.foldl pstep (emptyDeal, 0)

/-- The deal-table component of one per-token step. -/
def tstep (d : ddTableDeal) (pc : String × Token) : ddTableDeal :=
  (pstep (d, 0) pc).1

/-- Flattening of a hands mapping into (seat key, token) pairs, in iteration order. -/
def flattenHands (hands : List (String × List Token)) : List (String × Token) :=
  match hands with
  | [] => []
  | pc :: t => pc.2.map (fun c => (pc.1, c)) ++ flattenHands t

/-- Number of set bits of a 32-bit cell (deal cells are `c_uint`). -/
def popcount (n : Nat) : Nat :=
  ((List.range 32).map fun i => n / 2 ^ i % 2).sum

/-- Total popcount across the 4x4 deal matrix. -/
def tablePopcount (d : ddTableDeal) : Nat :=
  (List.finRange 4).foldl
    (fun a p => (List.finRange 4).foldl (fun a s => a + popcount (d p s)) a) 0

/-- The vulnerability table of `BridgeSolver.get_vulnerability`. -/
def vul_pattern : List Nat := [0, 1, 2, 3, 1, 2, 3, 0, 2, 3, 0, 1, 3, 0, 1, 2]

/-- `BridgeSolver.get_vulnerability`: `vul_pattern[(round - 1) % 16]`.
`Int.emod` agrees with Python `%` for the positive modulus 16, so the
index is always in `[0, 16)` and the Python list indexing never faults. -/
def get_vulnerability (round : Int) : Nat :=
  vul_pattern.getD ((round - 1) % 16).toNat 0

/-- The label list `["None", "NS", "EW", "Both"]` used by `solve`. -/
def vul_labels : List String := ["None", "NS", "EW", "Both"]

/-- The literal 16-entry vulnerability label table stated in the spec,
for comparison with the code's `vul_pattern`:
None, NS, EW, Both, NS, EW, Both, None, EW, Both, None, NS, Both, None, NS, EW. -/
def specVulTable : List String :=
  ["None", "NS", "EW", "Both", "NS", "EW", "Both", "None",
   "EW", "Both", "None", "NS", "Both", "None", "NS", "EW"]

/-- ctypes `.value` on a `c_char` array: the bytes up to the first NUL. -/
def cValue (buf : List Nat) : List Nat :=
  buf.takeWhile (fun b => b ≠ 0)

/-- Whether a byte is a UTF-8 continuation byte. -/
def isCont (b : Nat) : Bool := 0x80 ≤ b && b ≤ 0xBF

/-- Strict UTF-8 decoding, as performed by Python `bytes.decode` with the
default strict error handler: overlong forms, surrogates and out-of-range
code points are rejected.  A failure models the raised
`UnicodeDecodeError`; the error string stands for `str(decode_err)`. -/
def utf8Decode : List Nat → Except String (List Char)
  | [] => .ok []
  | b :: rest =>
    if b ≤ 0x7F then
      match utf8Decode rest with
      | .ok cs => .ok (Char.ofNat b :: cs)
      | .error e => .error e
    else if 0xC2 ≤ b && b ≤ 0xDF then
      match rest with
      | b1 :: rest1 =>
        if isCont b1 then
          match utf8Decode rest1 with
          | .ok cs => .ok (Char.ofNat ((b - 0xC0) * 0x40 + (b1 - 0x80)) :: cs)
          | .error e => .error e
        else .error "invalid continuation byte"
      | [] => .error "unexpected end of data"
    else if 0xE0 ≤ b && b ≤ 0xEF then
      match rest with
      | b1 :: b2 :: rest2 =>
        if (if b = 0xE0 then decide (0xA0 ≤ b1) && decide (b1 ≤ 0xBF)
            else if b = 0xED then decide (0x80 ≤ b1) && decide (b1 ≤ 0x9F)
            else isCont b1) && isCont b2 then
          match utf8Decode rest2 with
          | .ok cs =>
              .ok (Char.ofNat ((b - 0xE0) * 0x1000 + (b1 - 0x80) * 0x40 + (b2 - 0x80)) :: cs)
          | .error e => .error e
        else .error "invalid continuation byte"
      | _ => .error "unexpected end of data"
    else if 0xF0 ≤ b && b ≤ 0xF4 then
      match rest with
      | b1 :: b2 :: b3 :: rest3 =>
        if (if b = 0xF0 then decide (0x90 ≤ b1) && decide (b1 ≤ 0xBF)
            else if b = 0xF4 then decide (0x80 ≤ b1) && decide (b1 ≤ 0x8F)
            else isCont b1) && isCont b2 && isCont b3 then
          match utf8Decode rest3 with
          | .ok cs =>
              .ok (Char.ofNat
                ((b - 0xF0) * 0x40000 + (b1 - 0x80) * 0x1000 +
                  (b2 - 0x80) * 0x40 + (b3 - 0x80)) :: cs)
          | .error e => .error e
        else .error "invalid continuation byte"
      | _ => .error "unexpected end of data"
    else .error "invalid start byte"

/-- Python `str.split(sep)` for a one-character separator: split on every
occurrence, keeping empty segments; the empty string yields `[[]]`. -/
def splitChar (sep : Char) : List Char → List (List Char)
  | [] => [[]]
  | c :: rest =>
    if c = sep then [] :: splitChar sep rest
    else
      match splitChar sep rest with
      | h :: t => (c :: h) :: t
      | [] => [[c]]

/-- `BridgeSolver._format_contract`: decode the buffer up to the NUL
terminator; if the text contains a colon return `s.split(':')[1]`,
otherwise return it unchanged.  A decode failure propagates as the
raised exception does in Python. -/
def format_contract (raw : List Nat) : Except String (List Char) :=
  match utf8Decode (cValue raw) with
  | .error e => .error e
  | .ok s => .ok (if s.contains ':' then (splitChar ':' s).getD 1 [] else s)

/-- The ctypes struct `ddTableResults`: `resTable[5][4]`, [strain][seat],
`c_int` entries. -/
abbrev ddTableResults := Fin 5 → Fin 4 → Int

/-- The ctypes struct `parResults`: two 16-byte score buffers and two
128-byte contract buffers, indexed by side. -/
structure parResults where
  parScore : Fin 2 → List Nat
  parContractsString : Fin 2 → List Nat

/-- The external DDS engine behaviour for one run: each entry point either
returns a status code with its output struct or raises (`Except.error`). -/
structure Engine where
  CalcDDtable : ddTableDeal → Except String (Int × ddTableResults)
  Par : ddTableResults → Nat → Except String (Int × parResults)

/-- A record of which engine entry points `solve` invoked. -/
inductive EngineCall
  | calcDDtable
  | par
deriving DecidableEq

/-- The `par_result` sub-dictionary of the response. -/
structure ParOut where
  vulnerability : String
  optimal_contract : String
  score : String
deriving DecidableEq

/-- The response dictionary built by `BridgeSolver.solve`.  `dd_table` is
kept in Python dict insertion order as an association list. -/
structure Envelope where
  status : String
  message : String
  dd_table : List (String × List (String × Int))
  par_result : ParOut
deriving DecidableEq

/-- The `result_data` initializer at the top of `solve`. -/
def defaultEnvelope : Envelope :=
  { status := "error"
    message := ""
    dd_table := []
    par_result := { vulnerability := "Unknown", optimal_contract := "-", score := "0" } }

/-- Display names of the strains, as in `solve`. -/
def suits_str : List String := ["Pik", "Kier", "Karo", "Trefl", "NT"]

/-- Display order NT, S, H, D, C used when assembling `dd_table`. -/
def display_order : List (Fin 5) := [4, 0, 1, 2, 3]

/-- The `structured_dd` assembly loop of `solve`. -/
def structuredDD (table : ddTableResults) : List (String × List (String × Int)) :=
  display_order.map fun s =>
    (suits_str.getD s.val "?",
      [("N", table s 0), ("E", table s 1), ("S", table s 2), ("W", table s 3)])

/-- The par block of `solve` (lines 237-250): the (contract, score, message)
triple after the par stage.  On `res_par == 1` the strings are decoded under
the inner `try`; a decoding exception from either decode leaves score at its
default "0" and overwrites the contract with a `Decode Error:` message.  On
`res_par != 1` the defaults "-" and "0" stand and the Par error message is
recorded. -/
def parFields (res_par : Int) (pres : parResults) : String × String × String :=
  if res_par = 1 then
    match format_contract (pres.parContractsString 0) with
    | .error e => ("Decode Error: " ++ e, "0", "")
    | .ok c =>
      match utf8Decode (cValue (pres.parScore 0)) with
      | .error e => ("Decode Error: " ++ e, "0", "")
      | .ok sc => (String.mk c, String.mk sc, "")
  else ("-", "0", "DDS Par Error: " ++ toString res_par)

/-- `BridgeSolver.solve`, instrumented with the list of engine entry points
invoked.  The outer Python `try` turns any raising engine call into the
default error envelope with a `Python Exception:` message; the inner `try`
around the par-string decoding replaces the contract with a
`Decode Error:` message.  The list indexings `vul_pattern[...]` and
`["None","NS","EW","Both"][vul_val]` are always in bounds (the pattern
entries are 0..3), so their `getD` defaults are unreachable. -/
def solveWithLog (eng : Engine) (hands : List (String × List Token)) (round_num : Int) :
    Envelope × List EngineCall :=
  if (encodeHands hands).2 ≠ 52 then
    ({ defaultEnvelope with
        message := "Invalid card count: " ++ toString (encodeHands hands).2 }, [])
  else
    match eng.CalcDDtable (encodeHands hands).1 with
    | .error e =>
        ({ defaultEnvelope with message := "Python Exception: " ++ e }, [.calcDDtable])
    | .ok (res_dd, table) =>
      if res_dd ≠ 1 then
        ({ defaultEnvelope with message := "DDS CalcDDtable Error: " ++ toString res_dd },
          [.calcDDtable])
      else
        match eng.Par table (get_vulnerability round_num) with
        | .error e =>
            ({ defaultEnvelope with message := "Python Exception: " ++ e },
              [.calcDDtable, .par])
        | .ok (res_par, pres) =>
          ({ status := "ok"
             message := (parFields res_par pres).2.2
             dd_table := structuredDD table
             par_result :=
               { vulnerability := vul_labels.getD (get_vulnerability round_num) "?"
                 optimal_contract := (parFields res_par pres).1
                 score := (parFields res_par pres).2.1 } },
            [.calcDDtable, .par])

/-- The envelope returned by `BridgeSolver.solve`. -/
def solve (eng : Engine) (hands : List (String × List Token)) (round_num : Int) : Envelope :=
  (solveWithLog eng hands round_num).1

/-- A history entry as assembled in `main.py` `solve_api`. -/
structure HistoryEntry where
  id : String
  time : String
  round : Int
  contract : String
  score : String
  bid_contract : String
deriving DecidableEq

/-- The history-recording step of `solve_api` (`main.py` lines 162-171):
append an entry only when the returned status is "ok". -/
def solveApiHistory (result : Envelope) (log : List HistoryEntry)
    (id time : String) (current_round : Int) (bid : String) : List HistoryEntry :=
  if result.status = "ok" then
    log ++ [{ id := id
              time := time
              round := current_round
              contract := result.par_result.optimal_contract
              score := result.par_result.score
              bid_contract := bid }]
  else log

/-- A full thirteen-card suit, token order A, K, ..., 2 as in `CURRENT_HANDS`. -/
def mkHand (suit : Char) : List Token :=
  ['A', 'K', 'Q', 'J', 'T', '9', '8', '7', '6', '5', '4', '3', '2'].map fun r => [r, suit]

/-- The `CURRENT_HANDS` deal of `main.py`: one full suit per seat. -/
def hands52 : List (String × List Token) :=
  [("N", mkHand 'S'), ("E", mkHand 'H'), ("S", mkHand 'D'), ("W", mkHand 'C')]

/-- The same deal with one card removed from West: 51 accepted tokens. -/
def hands51 : List (String × List Token) :=
  [("N", mkHand 'S'), ("E", mkHand 'H'), ("S", mkHand 'D'), ("W", (mkHand 'C').drop 1)]

/-- The same deal with North's 2S replaced by a duplicate ace of spades:
52 accepted tokens but only 51 distinct cards. -/
def handsDup : List (String × List Token) :=
  [("N", ['A', 'S'] :: (mkHand 'S').dropLast),
   ("E", mkHand 'H'), ("S", mkHand 'D'), ("W", mkHand 'C')]

/-- A par-result struct whose slot 0 decodes to contract "NS:3NT" and score "500". -/
def presNormal : parResults :=
  { parScore := fun _ => [0x35, 0x30, 0x30, 0, 0, 0]
    parContractsString := fun _ => [0x4E, 0x53, 0x3A, 0x33, 0x4E, 0x54, 0, 0] }

/-- A par-result struct whose contract buffer text is "A:B:C". -/
def presMultiColon : parResults :=
  { parScore := fun _ => [0x31, 0x30, 0, 0]
    parContractsString := fun _ => [0x41, 0x3A, 0x42, 0x3A, 0x43, 0, 0] }

/-- A par-result struct whose contract buffer is not valid UTF-8. -/
def presBadBytes : parResults :=
  { parScore := fun _ => [0x31, 0, 0]
    parContractsString := fun _ => [0xFF, 0x41, 0, 0] }

/-- An engine run where both stages succeed. -/
def engOK : Engine :=
  { CalcDDtable := fun _ => .ok (1, fun _ _ => 7)
    Par := fun _ _ => .ok (1, presNormal) }

/-- An engine run where the trick-table stage fails with code 2. -/
def engDDFail : Engine :=
  { CalcDDtable := fun _ => .ok (2, fun _ _ => 0)
    Par := fun _ _ => .ok (1, presNormal) }

/-- An engine run where the trick table succeeds and the par stage fails with code 5. -/
def engParFail : Engine :=
  { CalcDDtable := fun _ => .ok (1, fun _ _ => 7)
    Par := fun _ _ => .ok (5, presNormal) }

/-- An engine run whose trick-table call raises. -/
def engRaise : Engine :=
  { CalcDDtable := fun _ => .error "ctypes fault"
    Par := fun _ _ => .ok (1, presNormal) }

/-- An engine run that succeeds with the multi-colon contract text. -/
def engMultiColon : Engine :=
  { CalcDDtable := fun _ => .ok (1, fun _ _ => 7)
    Par := fun _ _ => .ok (1, presMultiColon) }

/-- An engine run that succeeds with undecodable contract bytes. -/
def engBadBytes : Engine :=
  { CalcDDtable := fun _ => .ok (1, fun _ _ => 7)
    Par := fun _ _ => .ok (1, presBadBytes) }

theorem solveWithLog_invalid (eng : Engine) (hands : List (String × List Token))
    (round : Int) (h : (encodeHands hands).2 ≠ 52) :
    solveWithLog eng hands round =
      ({ defaultEnvelope with
          message := "Invalid card count: " ++ toString (encodeHands hands).2 }, []) := by
  unfold solveWithLog
  rw [if_pos h]

theorem solveWithLog_dd_raise (eng : Engine) (hands : List (String × List Token))
    (round : Int) (e : String) (h52 : (encodeHands hands).2 = 52)
    (hdd : eng.CalcDDtable (encodeHands hands).1 = .error e) :
    solveWithLog eng hands round =
      ({ defaultEnvelope with message := "Python Exception: " ++ e }, [.calcDDtable]) := by
  unfold solveWithLog
  rw [if_neg (by simp [h52]), hdd]

theorem solveWithLog_dd_fail (eng : Engine) (hands : List (String × List Token))
    (round : Int) (code : Int) (table : ddTableResults)
    (h52 : (encodeHands hands).2 = 52)
    (hdd : eng.CalcDDtable (encodeHands hands).1 = .ok (code, table))
    (hcode : code ≠ 1) :
    solveWithLog eng hands round =
      ({ defaultEnvelope with message := "DDS CalcDDtable Error: " ++ toString code },
        [.calcDDtable]) := by
  unfold solveWithLog
  rw [if_neg (by simp [h52]), hdd]
  simp only [hcode, if_pos, ne_eq, not_false_iff, if_true]

theorem solveWithLog_par_raise (eng : Engine) (hands : List (String × List Token))
    (round : Int) (table : ddTableResults) (e : String)
    (h52 : (encodeHands hands).2 = 52)
    (hdd : eng.CalcDDtable (encodeHands hands).1 = .ok (1, table))
    (hpar : eng.Par table (get_vulnerability round) = .error e) :
    solveWithLog eng hands round =
      ({ defaultEnvelope with message := "Python Exception: " ++ e },
        [.calcDDtable, .par]) := by
  unfold solveWithLog
  rw [if_neg (by simp [h52]), hdd]
  simp only [ne_eq, not_true_eq_false, if_false, ite_self, if_neg]
  rw [hpar]

theorem solveWithLog_par_done (eng : Engine) (hands : List (String × List Token))
    (round : Int) (table : ddTableResults) (res_par : Int) (pres : parResults)
    (h52 : (encodeHands hands).2 = 52)
    (hdd : eng.CalcDDtable (encodeHands hands).1 = .ok (1, table))
    (hpar : eng.Par table (get_vulnerability round) = .ok (res_par, pres)) :
    solveWithLog eng hands round =
      ({ status := "ok"
         message := (parFields res_par pres).2.2
         dd_table := structuredDD table
         par_result :=
           { vulnerability := vul_labels.getD (get_vulnerability round) "?"
             optimal_contract := (parFields res_par pres).1
             score := (parFields res_par pres).2.1 } },
        [.calcDDtable, .par]) := by
  unfold solveWithLog
  rw [if_neg (by simp [h52]), hdd]
  simp only [ne_eq, not_true_eq_false, if_false, ite_self, if_neg]
  rw [hpar]

theorem solveApiHistory_of_error (result : Envelope) (log : List HistoryEntry)
    (id time : String) (round : Int) (bid : String)
    (h : ¬result.status = "ok") :
    solveApiHistory result log id time round bid = log := by
  unfold solveApiHistory
  rw [if_neg h]

theorem get_vulnerability_lt (round : Int) : get_vulnerability round < 4 := by
  unfold get_vulnerability
  have h16 : ((round - 1).emod 16).toNat < 16 := by
    have h1 : (round - 1).emod 16 < 16 := Int.emod_lt_of_pos _ (by decide)
    omega
  have hall : ∀ k, k < 16 → vul_pattern.getD k 0 < 4 := by decide
  exact hall _ h16

/-- C1: a hands mapping with an accepted-token count other than 52 yields an
error envelope whose message states the actual count, and neither engine
entry point is invoked. -/
theorem C1_invalid_count_rejected (eng : Engine) (hands : List (String × List Token))
    (round : Int) (h : (encodeHands hands).2 ≠ 52) :
    (solve eng hands round).status = "error" ∧
    (solve eng hands round).message =
      "Invalid card count: " ++ toString (encodeHands hands).2 ∧
    (solveWithLog eng hands round).2 = [] := by
  unfold solve
  rw [solveWithLog_invalid eng hands round h]
  exact ⟨rfl, rfl, rfl⟩

/-- C1 witness: the 51-card deal is rejected, the message mentions 51, and
the engine-call log is empty. -/
theorem C1_witness :
    (encodeHands hands51).2 ≠ 52 ∧
    (solve engOK hands51 3).status = "error" ∧
    (solve engOK hands51 3).message = "Invalid card count: 51" ∧
    (solveWithLog engOK hands51 3).2 = [] := by
  obtain ⟨h1, h2, h3⟩ := C1_invalid_count_rejected engOK hands51 3 (by decide)
  refine ⟨by decide, h1, ?_, h3⟩
  rw [h2]
  rfl

/-- C2: once the trick-table stage returns code 1, the envelope status is
"ok" for any normally returning par stage; a par code other than 1 only
downgrades the par fields to the sentinels "-" and "0".  A trick-table code
other than 1 always yields status "error". -/
theorem C2_par_failure_nonfatal (eng : Engine) (hands : List (String × List Token))
    (round : Int) (h52 : (encodeHands hands).2 = 52) :
    (∀ table code2 pres,
      eng.CalcDDtable (encodeHands hands).1 = .ok (1, table) →
      eng.Par table (get_vulnerability round) = .ok (code2, pres) →
      (solve eng hands round).status = "ok" ∧
      (code2 ≠ 1 →
        (solve eng hands round).par_result.optimal_contract = "-" ∧
        (solve eng hands round).par_result.score = "0")) ∧
    (∀ code table,
      eng.CalcDDtable (encodeHands hands).1 = .ok (code, table) →
      code ≠ 1 → (solve eng hands round).status = "error") := by
  constructor
  · intro table code2 pres hdd hpar
    unfold solve
    rw [solveWithLog_par_done eng hands round table code2 pres h52 hdd hpar]
    refine ⟨rfl, fun hne => ?_⟩
    constructor
    · show (parFields code2 pres).1 = "-"
      unfold parFields
      rw [if_neg hne]
    · show (parFields code2 pres).2.1 = "0"
      unfold parFields
      rw [if_neg hne]
  · intro code table hdd hcode
    unfold solve
    rw [solveWithLog_dd_fail eng hands round code table h52 hdd hcode]
    rfl

/-- C2 witness: with a par stage failing with code 5 the envelope is still
"ok" with sentinel par fields, while a trick-table code 2 gives "error". -/
theorem C2_witness :
    (solve engParFail hands52 1).status = "ok" ∧
    (solve engParFail hands52 1).par_result.optimal_contract = "-" ∧
    (solve engParFail hands52 1).par_result.score = "0" ∧
    (solve engDDFail hands52 1).status = "error" := by
  have hA := (C2_par_failure_nonfatal engParFail hands52 1 (by decide)).1
    (fun _ _ => 7) 5 presNormal rfl rfl
  have hB := (C2_par_failure_nonfatal engDDFail hands52 1 (by decide)).2
    2 (fun _ _ => 0) rfl (by decide)
  exact ⟨hA.1, (hA.2 (by decide)).1, (hA.2 (by decide)).2, hB⟩

/-- C6: a trick-table code other than 1 yields an error envelope with an
empty trick table and the default par sentinels, and the caller appends no
history entry. -/
theorem C6_ddtable_failure_frame (eng : Engine) (hands : List (String × List Token))
    (round : Int) (code : Int) (table : ddTableResults) (log : List HistoryEntry)
    (id time bid : String)
    (h52 : (encodeHands hands).2 = 52)
    (hdd : eng.CalcDDtable (encodeHands hands).1 = .ok (code, table))
    (hcode : code ≠ 1) :
    (solve eng hands round).status = "error" ∧
    (solve eng hands round).dd_table = [] ∧
    (solve eng hands round).par_result =
      { vulnerability := "Unknown", optimal_contract := "-", score := "0" } ∧
    (solve eng hands round).message = "DDS CalcDDtable Error: " ++ toString code ∧
    solveApiHistory (solve eng hands round) log id time round bid = log := by
  unfold solve
  rw [solveWithLog_dd_fail eng hands round code table h52 hdd hcode]
  refine ⟨rfl, rfl, rfl, rfl, ?_⟩
  apply solveApiHistory_of_error
  intro hok
  have hok2 : ("error" : String) = "ok" := hok
  exact absurd hok2 (by decide)

/-- C6 witness: concrete run with trick-table code 2 against the standard
52-card deal; the history log is untouched. -/
theorem C6_witness :
    (solve engDDFail hands52 7).status = "error" ∧
    (solve engDDFail hands52 7).dd_table = [] ∧
    (solve engDDFail hands52 7).par_result =
      { vulnerability := "Unknown", optimal_contract := "-", score := "0" } ∧
    solveApiHistory (solve engDDFail hands52 7) [] "id0" "12:00:00" 7 "none" = [] := by
  have h := C6_ddtable_failure_frame engDDFail hands52 7 2 (fun _ _ => 0)
    [] "id0" "12:00:00" "none" (by decide) rfl (by decide)
  exact ⟨h.1, h.2.1, h.2.2.1, h.2.2.2.2⟩

/-- C10: when the trick table succeeds and the par stage returns a code
other than 1, the envelope pairs status "ok" with the non-empty message
"DDS Par Error: <code>", the vulnerability field carries the computed label
for the round (never the "Unknown" sentinel), and the par fields are the
sentinels "-" and "0". -/
theorem C10_ok_with_par_error_message (eng : Engine) (hands : List (String × List Token))
    (round : Int) (table : ddTableResults) (code2 : Int) (pres : parResults)
    (h52 : (encodeHands hands).2 = 52)
    (hdd : eng.CalcDDtable (encodeHands hands).1 = .ok (1, table))
    (hpar : eng.Par table (get_vulnerability round) = .ok (code2, pres))
    (hne : code2 ≠ 1) :
    (solve eng hands round).status = "ok" ∧
    (solve eng hands round).message = "DDS Par Error: " ++ toString code2 ∧
    (solve eng hands round).message ≠ "" ∧
    (solve eng hands round).par_result.vulnerability =
      vul_labels.getD (get_vulnerability round) "?" ∧
    (solve eng hands round).par_result.vulnerability ≠ "Unknown" ∧
    (solve eng hands round).par_result.optimal_contract = "-" ∧
    (solve eng hands round).par_result.score = "0" := by
  unfold solve
  rw [solveWithLog_par_done eng hands round table code2 pres h52 hdd hpar]
  have hpf : parFields code2 pres = ("-", "0", "DDS Par Error: " ++ toString code2) := by
    unfold parFields
    rw [if_neg hne]
  have hvul : vul_labels.getD (get_vulnerability round) "?" ≠ "Unknown" := by
    have h4 := get_vulnerability_lt round
    have hall : ∀ v, v < 4 → vul_labels.getD v "?" ≠ "Unknown" := by decide
    exact hall _ h4
  have hmsg : ("DDS Par Error: " ++ toString code2) ≠ "" := by
    intro hcontra
    have hlen := congrArg String.length hcontra
    rw [String.length_append] at hlen
    have h15 : ("DDS Par Error: ").length = 15 := rfl
    have h0 : ("" : String).length = 0 := rfl
    omega
  refine ⟨rfl, ?_, ?_, rfl, hvul, ?_, ?_⟩
  · show (parFields code2 pres).2.2 = _
    rw [hpf]
  · show (parFields code2 pres).2.2 ≠ ""
    rw [hpf]
    exact hmsg
  · show (parFields code2 pres).1 = "-"
    rw [hpf]
  · show (parFields code2 pres).2.1 = "0"
    rw [hpf]

/-- C10 witness: par failure with code 5 on round 1 gives status "ok",
message "DDS Par Error: 5", vulnerability "None" and sentinel par fields. -/
theorem C10_witness :
    (solve engParFail hands52 1).status = "ok" ∧
    (solve engParFail hands52 1).message = "DDS Par Error: 5" ∧
    (solve engParFail hands52 1).par_result.vulnerability = "None" ∧
    (solve engParFail hands52 1).par_result.optimal_contract = "-" ∧
    (solve engParFail hands52 1).par_result.score = "0" := by
  have h := C10_ok_with_par_error_message engParFail hands52 1 (fun _ _ => 7) 5 presNormal
    (by decide) rfl rfl (by decide)
  refine ⟨h.1, ?_, ?_, h.2.2.2.2.2.1, h.2.2.2.2.2.2⟩
  · rw [h.2.1]
    rfl
  · rw [h.2.2.2.1]
    rfl

/-- C5: `solve` always returns a structured envelope whose status is one of
"ok" and "error", for every engine behaviour including raising entry
points; a raising engine call is caught and converted into an error
envelope whose message describes the fault. -/
theorem C5_no_exception_escapes (eng : Engine) (hands : List (String × List Token))
    (round : Int) :
    ((solve eng hands round).status = "ok" ∨ (solve eng hands round).status = "error") ∧
    (∀ e, (encodeHands hands).2 = 52 →
      eng.CalcDDtable (encodeHands hands).1 = .error e →
      (solve eng hands round).status = "error" ∧
      (solve eng hands round).message = "Python Exception: " ++ e) ∧
    (∀ e table, (encodeHands hands).2 = 52 →
      eng.CalcDDtable (encodeHands hands).1 = .ok (1, table) →
      eng.Par table (get_vulnerability round) = .error e →
      (solve eng hands round).status = "error" ∧
      (solve eng hands round).message = "Python Exception: " ++ e) := by
  refine ⟨?_, ?_, ?_⟩
  · by_cases h52 : (encodeHands hands).2 = 52
    · rcases hdd : eng.CalcDDtable (encodeHands hands).1 with e | ⟨code, table⟩
      · right
        unfold solve
        rw [solveWithLog_dd_raise eng hands round e h52 hdd]
        rfl
      · by_cases hc : code = 1
        · subst hc
          rcases hpar : eng.Par table (get_vulnerability round) with e | ⟨rp, pres⟩
          · right
            unfold solve
            rw [solveWithLog_par_raise eng hands round table e h52 hdd hpar]
            rfl
          · left
            unfold solve
            rw [solveWithLog_par_done eng hands round table rp pres h52 hdd hpar]
        · right
          unfold solve
          rw [solveWithLog_dd_fail eng hands round code table h52 hdd hc]
          rfl
    · right
      unfold solve
      rw [solveWithLog_invalid eng hands round h52]
      rfl
  · intro e h52 hdd
    unfold solve
    rw [solveWithLog_dd_raise eng hands round e h52 hdd]
    exact ⟨rfl, rfl⟩
  · intro e table h52 hdd hpar
    unfold solve
    rw [solveWithLog_par_raise eng hands round table e h52 hdd hpar]
    exact ⟨rfl, rfl⟩

/-- C5 witness: a run whose trick-table call raises is converted into an
error envelope carrying the fault description. -/
theorem C5_witness :
    ((solve engRaise hands52 1).status = "ok" ∨
      (solve engRaise hands52 1).status = "error") ∧
    (solve engRaise hands52 1).status = "error" ∧
    (solve engRaise hands52 1).message = "Python Exception: ctypes fault" := by
  have h := C5_no_exception_escapes engRaise hands52 1
  have h2 := h.2.1 "ctypes fault" (by decide) rfl
  exact ⟨h.1, h2.1, h2.2⟩

/-- C8: a par-result buffer whose bytes fail to decode does not crash
`solve`; the failure is caught and reported as a decode-error message in
the contract field of the completed envelope, whether the contract buffer
or the score buffer is the one that fails. -/
theorem C8_decode_error_caught (eng : Engine) (hands : List (String × List Token))
    (round : Int) (table : ddTableResults) (pres : parResults) (e : String)
    (h52 : (encodeHands hands).2 = 52)
    (hdd : eng.CalcDDtable (encodeHands hands).1 = .ok (1, table))
    (hpar : eng.Par table (get_vulnerability round) = .ok (1, pres)) :
    (format_contract (pres.parContractsString 0) = .error e →
      (solve eng hands round).status = "ok" ∧
      (solve eng hands round).par_result.optimal_contract = "Decode Error: " ++ e ∧
      (solve eng hands round).par_result.score = "0") ∧
    (∀ c, format_contract (pres.parContractsString 0) = .ok c →
      utf8Decode (cValue (pres.parScore 0)) = .error e →
      (solve eng hands round).status = "ok" ∧
      (solve eng hands round).par_result.optimal_contract = "Decode Error: " ++ e ∧
      (solve eng hands round).par_result.score = "0") := by
  constructor
  · intro hfc
    unfold solve
    rw [solveWithLog_par_done eng hands round table 1 pres h52 hdd hpar]
    have hpf : parFields 1 pres = ("Decode Error: " ++ e, "0", "") := by
      unfold parFields
      rw [if_pos rfl, hfc]
    refine ⟨rfl, ?_, ?_⟩
    · show (parFields 1 pres).1 = _
      rw [hpf]
    · show (parFields 1 pres).2.1 = "0"
      rw [hpf]
  · intro c hfc hsc
    unfold solve
    rw [solveWithLog_par_done eng hands round table 1 pres h52 hdd hpar]
    have hpf : parFields 1 pres = ("Decode Error: " ++ e, "0", "") := by
      unfold parFields
      rw [if_pos rfl, hfc, hsc]
    refine ⟨rfl, ?_, ?_⟩
    · show (parFields 1 pres).1 = _
      rw [hpf]
    · show (parFields 1 pres).2.1 = "0"
      rw [hpf]

/-- C8 witness: a contract buffer starting with byte 0xFF fails strict
UTF-8 decoding; the envelope is still produced, with the decode error
reported in the contract field. -/
theorem C8_witness :
    (solve engBadBytes hands52 1).status = "ok" ∧
    (solve engBadBytes hands52 1).par_result.optimal_contract =
      "Decode Error: invalid start byte" ∧
    (solve engBadBytes hands52 1).par_result.score = "0" := by
  have h := (C8_decode_error_caught engBadBytes hands52 1 (fun _ _ => 7) presBadBytes
    "invalid start byte" (by decide) rfl rfl).1 rfl
  exact ⟨h.1, by rw [h.2.1]; rfl, h.2.2⟩

/-- C7: for every round at least 1, the computed vulnerability label equals
the spec's fixed 16-element table at index (round - 1) mod 16, the function
is periodic with period 16, round 17 agrees with round 1 (both None, code
0), and round 4 gives Both (code 3). -/
theorem C7_vulnerability_table (round : Int) (h : 1 ≤ round) :
    vul_labels.getD (get_vulnerability round) "?" =
      specVulTable.getD ((round - 1) % 16).toNat "?" ∧
    get_vulnerability (round + 16) = get_vulnerability round ∧
    get_vulnerability 17 = get_vulnerability 1 ∧
    get_vulnerability 1 = 0 ∧ vul_labels.getD (get_vulnerability 1) "?" = "None" ∧
    get_vulnerability 4 = 3 ∧ vul_labels.getD (get_vulnerability 4) "?" = "Both" := by
  refine ⟨?_, ?_, by decide, by decide, by decide, by decide, by decide⟩
  · have h16 : ((round - 1).emod 16).toNat < 16 := by
      have h1 : (round - 1).emod 16 < 16 := Int.emod_lt_of_pos _ (by decide)
      omega
    have hall : ∀ k, k < 16 →
        vul_labels.getD (vul_pattern.getD k 0) "?" = specVulTable.getD k "?" := by decide
    exact hall _ h16
  · unfold get_vulnerability
    have h1 : round + 16 - 1 = round - 1 + 16 * 1 := by ring
    rw [h1, Int.add_mul_emod_self_left]

/-- C7 witness: round 21 (= 5 mod 16) carries the NS label, matching the
spec table entry at index 4. -/
theorem C7_witness :
    vul_labels.getD (get_vulnerability 21) "?" = specVulTable.getD 4 "?" ∧
    get_vulnerability 37 = get_vulnerability 21 ∧
    get_vulnerability 17 = get_vulnerability 1 := by
  have h := C7_vulnerability_table 21 (by decide)
  refine ⟨?_, h.2.1, h.2.2.1⟩
  have h4 : (((21 : Int) - 1) % 16).toNat = 4 := by decide
  rw [h.1, h4]

theorem dealOr_comm (d : ddTableDeal) (p1 s1 p2 s2 : Fin 4) (b1 b2 : Nat) :
    dealOr (dealOr d p1 s1 b1) p2 s2 b2 = dealOr (dealOr d p2 s2 b2) p1 s1 b1 := by
  funext p' s'
  unfold dealOr
  by_cases h1 : p' = p1 ∧ s' = s1
  · by_cases h2 : p' = p2 ∧ s' = s2
    · rw [if_pos h1, if_pos h2, if_pos h2, if_pos h1,
        Nat.lor_assoc, Nat.lor_assoc, Nat.lor_comm b1 b2]
    · rw [if_pos h1, if_neg h2, if_neg h2, if_pos h1]
  · by_cases h2 : p' = p2 ∧ s' = s2
    · rw [if_pos h2, if_neg h1, if_neg h1, if_pos h2]
    · rw [if_neg h2, if_neg h1, if_neg h1, if_neg h2]

theorem dealOr_idem (d : ddTableDeal) (p s : Fin 4) (b : Nat) :
    dealOr (dealOr d p s b) p s b = dealOr d p s b := by
  funext p' s'
  unfold dealOr
  by_cases h : p' = p ∧ s' = s
  · rw [if_pos h, if_pos h, Nat.lor_assoc, Nat.or_self]
  · rw [if_neg h, if_neg h]

theorem pstep_fst (st : ddTableDeal × Nat) (pc : String × Token) :
    (pstep st pc).1 = tstep st.1 pc := by
  unfold tstep pstep
  rcases h : HandMap pc.1 with _ | p
  · rfl
  · unfold encodeCard
    rcases pc.2 with _ | ⟨c0, _ | ⟨c1, rest⟩⟩
    · rfl
    · rfl
    · rcases hr : RankMap c0.toUpper with _ | bit <;>
        rcases hs : SuitMap c1.toUpper with _ | sv <;> simp [hr, hs]

theorem tstep_shape (pc : String × Token) :
    (∀ d, tstep d pc = d) ∨ (∃ p s bit, ∀ d, tstep d pc = dealOr d p s bit) := by
  unfold tstep pstep
  rcases h : HandMap pc.1 with _ | p
  · left
    intro d
    rfl
  · unfold encodeCard
    rcases pc.2 with _ | ⟨c0, _ | ⟨c1, rest⟩⟩
    · left
      intro d
      rfl
    · left
      intro d
      rfl
    · rcases hr : RankMap c0.toUpper with _ | bit <;>
        rcases hs : SuitMap c1.toUpper with _ | sv
      · left
        intro d
        simp [hr, hs]
      · left
        intro d
        simp [hr, hs]
      · left
        intro d
        simp [hr, hs]
      · right
        refine ⟨p, sv, bit, fun d => ?_⟩
        simp [hr, hs]

theorem tstep_comm (d : ddTableDeal) (a b : String × Token) :
    tstep (tstep d a) b = tstep (tstep d b) a := by
  rcases tstep_shape a with ha | ⟨pa, sa, ba, ha⟩ <;>
    rcases tstep_shape b with hb | ⟨pb, sb, bb, hb⟩
  · simp only [ha, hb]
  · simp only [ha, hb]
  · simp only [ha, hb]
  · simp only [ha, hb]
    exact dealOr_comm d pa sa pb sb ba bb

theorem tstep_idem (d : ddTableDeal) (a : String × Token) :
    tstep (tstep d a) a = tstep d a := by
  rcases tstep_shape a with ha | ⟨p, s, b, ha⟩
  · simp only [ha]
  · simp only [ha]
    exact dealOr_idem d p s b

theorem foldl_pstep_fst (l : List (String × Token)) :
    ∀ st : ddTableDeal × Nat, (l.foldl pstep st).1 = l.foldl tstep st.1 := by
  induction l with
  | nil => intro st; rfl
  | cons pc t ih =>
    intro st
    rw [List.foldl_cons, List.foldl_cons, ih (pstep st pc), pstep_fst st pc]

theorem foldl_tstep_comm (l : List (String × Token)) :
    ∀ (d : ddTableDeal) (a : String × Token),
      l.foldl tstep (tstep d a) = tstep (l.foldl tstep d) a := by
  induction l with
  | nil => intro d a; rfl
  | cons b t ih =>
    intro d a
    rw [List.foldl_cons, List.foldl_cons, tstep_comm d a b, ih (tstep d b) a]

theorem foldl_tstep_perm {l1 l2 : List (String × Token)} (h : l1.Perm l2) :
    ∀ d : ddTableDeal, l1.foldl tstep d = l2.foldl tstep d := by
  induction h with
  | nil => intro d; rfl
  | cons x _ ih =>
    intro d
    rw [List.foldl_cons, List.foldl_cons, ih (tstep d x)]
  | swap x y l =>
    intro d
    rw [List.foldl_cons, List.foldl_cons, List.foldl_cons, List.foldl_cons,
      tstep_comm d y x]
  | trans _ _ ih1 ih2 =>
    intro d
    rw [ih1 d, ih2 d]

theorem foldl_tstep_twice (l : List (String × Token)) :
    ∀ d : ddTableDeal, l.foldl tstep (l.foldl tstep d) = l.foldl tstep d := by
  induction l with
  | nil => intro d; rfl
  | cons a t ih =>
    intro d
    show t.foldl tstep (tstep (t.foldl tstep (tstep d a)) a) = t.foldl tstep (tstep d a)
    calc t.foldl tstep (tstep (t.foldl tstep (tstep d a)) a)
        = tstep (t.foldl tstep (t.foldl tstep (tstep d a))) a :=
          foldl_tstep_comm t (t.foldl tstep (tstep d a)) a
      _ = tstep (t.foldl tstep (tstep d a)) a := by rw [ih (tstep d a)]
      _ = t.foldl tstep (tstep (tstep d a) a) := (foldl_tstep_comm t (tstep d a) a).symm
      _ = t.foldl tstep (tstep d a) := by rw [tstep_idem d a]

theorem flattenHands_cons (pc : String × List Token) (t : List (String × List Token)) :
    flattenHands (pc :: t) = pc.2.map (fun c => (pc.1, c)) ++ flattenHands t := rfl

theorem flattenHands_append (h1 h2 : List (String × List Token)) :
    flattenHands (h1 ++ h2) = flattenHands h1 ++ flattenHands h2 := by
  induction h1 with
  | nil => rfl
  | cons pc t ih =>
    rw [List.cons_append, flattenHands_cons, flattenHands_cons, ih, List.append_assoc]

theorem map_foldl_pstep (pl : String) (cards : List Token) :
    ∀ st : ddTableDeal × Nat,
      (cards.map fun c => (pl, c)).foldl pstep st =
        match HandMap pl with
        | none => st
        | some p => cards.foldl (fun st c => encodeCard st p c) st := by
  induction cards with
  | nil => intro st; rcases HandMap pl with _ | p <;> rfl
  | cons c t ih =>
    intro st
    rw [List.map_cons, List.foldl_cons, ih (pstep st (pl, c))]
    rcases h : HandMap pl with _ | p
    · have hp : pstep st (pl, c) = st := by
        show (match HandMap pl with
          | none => st
          | some p => encodeCard st p c) = st
        rw [h]
      rw [hp]
    · have hp : pstep st (pl, c) = encodeCard st p c := by
        show (match HandMap pl with
          | none => st
          | some p => encodeCard st p c) = encodeCard st p c
        rw [h]
      rw [hp]
      rfl

theorem encodeHands_eq_pairs (hs : List (String × List Token)) :
    encodeHands hs = encodePairs (flattenHands hs) := by
  unfold encodeHands encodePairs
  generalize (emptyDeal, (0 : Nat)) = st
  induction hs generalizing st with
  | nil => rfl
  | cons pc t ih =>
    rw [List.foldl_cons]
    unfold flattenHands
    rw [List.foldl_append, map_foldl_pstep pc.1 pc.2 st, ih]

theorem encodeHands_fst (hs : List (String × List Token)) :
    (encodeHands hs).1 = (flattenHands hs).foldl tstep emptyDeal := by
  rw [encodeHands_eq_pairs]
  exact foldl_pstep_fst (flattenHands hs) (emptyDeal, 0)

/-- C9: the deal mask table produced by the encoding loop only depends on
the multiset of (seat, token) pairs, not on the order in which they are
processed; and folding the same token list in a second time leaves the
mask table unchanged (bitwise OR accumulation is commutative and
idempotent per cell). -/
theorem C9_encoding_order_independent (h1 h2 : List (String × List Token))
    (hp : (flattenHands h1).Perm (flattenHands h2)) :
    (encodeHands h1).1 = (encodeHands h2).1 ∧
    (encodeHands (h1 ++ h1)).1 = (encodeHands h1).1 := by
  constructor
  · rw [encodeHands_fst, encodeHands_fst]
    exact foldl_tstep_perm hp emptyDeal
  · rw [encodeHands_fst, encodeHands_fst, flattenHands_append, List.foldl_append]
    exact foldl_tstep_twice (flattenHands h1) emptyDeal

/-- C9 witness: two seat orderings of the same two-card assignment produce
the identical mask table, and re-running the encoding changes nothing. -/
theorem C9_witness :
    (encodeHands [("N", [['A', 'S']]), ("E", [['K', 'H']])]).1 =
      (encodeHands [("E", [['K', 'H']]), ("N", [['A', 'S']])]).1 ∧
    (encodeHands ([("N", [['A', 'S']]), ("E", [['K', 'H']])] ++
        [("N", [['A', 'S']]), ("E", [['K', 'H']])])).1 =
      (encodeHands [("N", [['A', 'S']]), ("E", [['K', 'H']])]).1 :=
  C9_encoding_order_independent
    [("N", [['A', 'S']]), ("E", [['K', 'H']])]
    [("E", [['K', 'H']]), ("N", [['A', 'S']])]
    (by decide)

theorem splitChar_cons (sep c : Char) (t : List Char) :
    splitChar sep (c :: t) =
      if c = sep then [] :: splitChar sep t
      else
        match splitChar sep t with
        | h :: tl => (c :: h) :: tl
        | [] => [[c]] := rfl

theorem splitChar_ne_nil (sep : Char) (l : List Char) : splitChar sep l ≠ [] := by
  induction l with
  | nil => exact List.cons_ne_nil [] []
  | cons c t ih =>
    rw [splitChar_cons]
    by_cases h : c = sep
    · rw [if_pos h]
      exact List.cons_ne_nil _ _
    · rw [if_neg h]
      rcases hr : splitChar sep t with _ | ⟨hd, tl⟩
      · exact absurd hr ih
      · exact List.cons_ne_nil _ _

theorem splitChar_head (sep : Char) (l : List Char) :
    (splitChar sep l).getD 0 [] = l.takeWhile (fun c => c != sep) := by
  induction l with
  | nil => rfl
  | cons c t ih =>
    rw [splitChar_cons]
    by_cases h : c = sep
    · rw [if_pos h]
      subst h
      simp [List.takeWhile_cons]
    · rw [if_neg h]
      rcases hr : splitChar sep t with _ | ⟨hd, tl⟩
      · exact absurd hr (splitChar_ne_nil sep t)
      · have hhd : hd = t.takeWhile (fun c => c != sep) := by
          rw [← ih, hr]
          rfl
        simp [List.takeWhile_cons, h, hhd, List.getD_cons_zero]

theorem splitChar_append (sep : Char) (a rest : List Char) (ha : sep ∉ a) :
    splitChar sep (a ++ sep :: rest) = a :: splitChar sep rest := by
  induction a with
  | nil =>
    rw [List.nil_append, splitChar_cons, if_pos rfl]
  | cons c ta ih =>
    have hc : ¬c = sep := fun h => ha (h ▸ List.mem_cons_self c ta)
    have hta : sep ∉ ta := fun h => ha (List.mem_cons_of_mem c h)
    rw [List.cons_append, splitChar_cons, if_neg hc, ih hta]

/-- C3 counterexample: a deal with a duplicated token in one seat has 52
accepted tokens but a mask-table popcount of 51, and `solve` still invokes
the engine instead of rejecting the deal. -/
theorem C3_counterexample :
    (encodeHands handsDup).2 = 52 ∧
    tablePopcount (encodeHands handsDup).1 = 51 ∧
    (solveWithLog engOK handsDup 1).2 ≠ [] := by
  exact ⟨by decide, by decide, by decide⟩

/-- C3 (amended): `solve` rejects the deal with no engine call exactly when
the accepted-token count differs from 52.  The popcount of the mask table
is never checked: a duplicated token keeps the count at 52 while the
popcount drops below 52, and the engine is invoked anyway. -/
theorem C3_reject_iff_count (eng : Engine) (hands : List (String × List Token))
    (round : Int) :
    (solveWithLog eng hands round).2 = [] ↔ (encodeHands hands).2 ≠ 52 := by
  constructor
  · intro hlog h52
    rcases hdd : eng.CalcDDtable (encodeHands hands).1 with e | ⟨code, table⟩
    · rw [solveWithLog_dd_raise eng hands round e h52 hdd] at hlog
      simp at hlog
    · by_cases hc : code = 1
      · subst hc
        rcases hpar : eng.Par table (get_vulnerability round) with e | ⟨rp, pres⟩
        · rw [solveWithLog_par_raise eng hands round table e h52 hdd hpar] at hlog
          simp at hlog
        · rw [solveWithLog_par_done eng hands round table rp pres h52 hdd hpar] at hlog
          simp at hlog
      · rw [solveWithLog_dd_fail eng hands round code table h52 hdd hc] at hlog
        simp at hlog
  · intro h
    rw [solveWithLog_invalid eng hands round h]

/-- C3 witness for the amended claim: the 51-card deal is rejected with no
engine call, while the full 52-card deal does reach the engine. -/
theorem C3_witness :
    (solveWithLog engOK hands51 1).2 = [] ∧ (solveWithLog engOK hands52 1).2 ≠ [] := by
  constructor
  · exact (C3_reject_iff_count engOK hands51 1).mpr (by decide)
  · intro hnil
    exact (C3_reject_iff_count engOK hands52 1).mp hnil (by decide)

/-- C4 counterexample: with par contract text "A:B:C" the pipeline returns
"B" (the segment between the first and second colon), not "B:C" (all
characters after the first colon) as claimed. -/
theorem C4_counterexample :
    (solve engMultiColon hands52 1).par_result.optimal_contract = "B" ∧
    ("B" : String) ≠ "B:C" := by
  exact ⟨by decide, by decide⟩

/-- C4 (amended): on par success the decoded contract string is split at
every colon and element 1 of the result is returned: the text strictly
between the first colon and the following colon (or the end of the string),
so any part after a second colon is dropped; a string without a colon is
returned unchanged; the score string is decoded verbatim. -/
theorem C4_contract_between_colons (eng : Engine) (hands : List (String × List Token))
    (round : Int) (table : ddTableResults) (pres : parResults) (s sc : List Char)
    (h52 : (encodeHands hands).2 = 52)
    (hdd : eng.CalcDDtable (encodeHands hands).1 = .ok (1, table))
    (hpar : eng.Par table (get_vulnerability round) = .ok (1, pres))
    (hs : utf8Decode (cValue (pres.parContractsString 0)) = .ok s)
    (hsc : utf8Decode (cValue (pres.parScore 0)) = .ok sc) :
    (∀ a rest, (':' : Char) ∉ a → s = a ++ ':' :: rest →
      (solve eng hands round).par_result.optimal_contract =
        String.mk (rest.takeWhile fun c => c != ':')) ∧
    (s.contains ':' = false →
      (solve eng hands round).par_result.optimal_contract = String.mk s) ∧
    (solve eng hands round).par_result.score = String.mk sc := by
  unfold solve
  rw [solveWithLog_par_done eng hands round table 1 pres h52 hdd hpar]
  have hpf : parFields 1 pres =
      (String.mk (if s.contains ':' then (splitChar ':' s).getD 1 [] else s),
        String.mk sc, "") := by
    unfold parFields format_contract
    rw [hs, hsc]
    rfl
  refine ⟨?_, ?_, ?_⟩
  · intro a rest hA hseq
    show (parFields 1 pres).1 = _
    rw [hpf]
    have hcontains : s.contains ':' = true := by
      rw [hseq]
      simp
    rw [hcontains, if_pos rfl, hseq, splitChar_append ':' a rest hA,
      List.getD_cons_succ, splitChar_head]
  · intro hB
    show (parFields 1 pres).1 = _
    rw [hpf, hB]
    rfl
  · show (parFields 1 pres).2.1 = _
    rw [hpf]

/-- C4 witness: contract text "NS:3NT" yields "3NT" and score "500" is
returned verbatim. -/
theorem C4_witness :
    (solve engOK hands52 1).par_result.optimal_contract = "3NT" ∧
    (solve engOK hands52 1).par_result.score = "500" := by
  have h := C4_contract_between_colons engOK hands52 1 (fun _ _ => 7) presNormal
    ['N', 'S', ':', '3', 'N', 'T'] ['5', '0', '0'] (by decide) rfl rfl rfl rfl
  constructor
  · rw [h.1 ['N', 'S'] ['3', 'N', 'T'] (by decide) rfl]
    decide
  · rw [h.2.2]

end JBerry
